import Mathlib

/-!
Verification of the extractor-backend core logic.

This file gives a shallow embedding of the two components of the
repository that contain original logic:

* the footnote extraction / stripping / reinjection pipeline of
  `word_processor.py` (class `WordProcessor`), and
* the structural PDF classifier and mode-policy gate of
  `pdf_processor.py` (class `PDFProcessor`).

Python regular expressions are embedded as executable functions on
`List Char` that reproduce the leftmost, greedy-with-backtracking
semantics of the concrete patterns used by the source
(`^\s*\((\d+)\)\s*(.+)$` in MULTILINE mode, `\(\s*(\d+)\s*\)`,
`\n{3,}`, `\n{2,}`, ` +`, `-{3,}`, `<!--.*?-->`).
Python `\s` is embedded for the ASCII whitespace characters and
Python `\d` (Unicode decimal digits) for the Western, Arabic-Indic
and Extended Arabic-Indic digit ranges, the only digit ranges the
repository deals with.  External collaborators (the spire.doc Word
document, the fitz document handle, the three extraction engines)
are modelled by the data they expose to the embedded code: the
target document by its text content together with a
find-first-occurrence function, the fitz handle by the page, block
and font data the classifier reads, the engines by an abstract
success flag.  Machine floats of the classifier are embedded as
exact rationals.
-/

/-- ASCII characters matched by Python `\s` (and stripped by `str.strip`). -/
def isPySpace (c : Char) : Bool :=
  c = ' ' || c = '\t' || c = '\n' || c = '\r' || c = '\x0b' || c = '\x0c'

/-- Characters matched by Python `\d` (Unicode decimal digits), restricted to
the Western, Arabic-Indic and Extended Arabic-Indic ranges. -/
def pyIsDigit (c : Char) : Bool :=
  (48 ≤ c.toNat && c.toNat ≤ 57) ||
  (0x660 ≤ c.toNat && c.toNat ≤ 0x669) ||
  (0x6F0 ≤ c.toNat && c.toNat ≤ 0x6F9)

/-- `str.strip()` on a character list. -/
def pyStripList (cs : List Char) : List Char :=
  ((cs.dropWhile isPySpace).reverse.dropWhile isPySpace).reverse

/-- `str.strip()`. -/
def pyStrip (s : String) : String := String.mk (pyStripList s.data)

/-- One attempt of `^\s*\((\d+)\)\s*(.+)$` (MULTILINE) at a line-start
position.  Returns the digit group, the raw body group and the suffix that
follows the match.  The trailing `\s*` is greedy and may cross newlines; when
it reaches the end of the input it backtracks until `(.+)$` can match a
non-newline character, exactly as the Python engine does. -/
def matchAt (cs : List Char) : Option (List Char × List Char × List Char) :=
  match cs.dropWhile isPySpace with
  | '(' :: cs2 =>
    let digits := cs2.takeWhile pyIsDigit
    match cs2.dropWhile pyIsDigit with
    | ')' :: cs4 =>
      if digits.isEmpty then none
      else
        let rest := cs4.dropWhile isPySpace
        match rest with
        | [] =>
          let ws := cs4.takeWhile isPySpace
          match ws.reverse.dropWhile (fun c => c == '\n') with
          | [] => none
          | c :: _ =>
            some (digits, [c],
              List.replicate (ws.reverse.takeWhile (fun c => c == '\n')).length '\n')
        | _ :: _ =>
          some (digits, rest.takeWhile (fun c => c != '\n'),
            rest.dropWhile (fun c => c != '\n'))
    | _ => none
  | _ => none

/-- `finditer` of the footnote pattern: scan left to right, attempting the
anchored pattern at every line start, resuming after each match. -/
def findFootnotesAux : Nat → List Char → Bool → List (String × String)
  | 0, _, _ => []
  | _ + 1, [], _ => []
  | fuel + 1, c :: cs, atStart =>
    if atStart then
      match matchAt (c :: cs) with
      | some (digits, body, rest) =>
        (String.mk digits, pyStrip (String.mk body)) :: findFootnotesAux fuel rest false
      | none => findFootnotesAux fuel cs (c = '\n')
    else findFootnotesAux fuel cs (c = '\n')

/-- All matches of the footnote pattern, with bodies stripped as in
`extract_footnotes`. -/
def footnoteMatches (text : String) : List (String × String) :=
  findFootnotesAux (text.data.length + 1) text.data true

/-- Python dict assignment `d[k] = v`: later keys overwrite earlier ones,
key order is first-insertion order. -/
def dictInsert (d : List (String × String)) (k v : String) : List (String × String) :=
  if d.any (fun p => p.1 = k) then d.map (fun p => if p.1 = k then (k, v) else p)
  else d ++ [(k, v)]

/-- `WordProcessor.extract_footnotes`. -/
def extract_footnotes (text : String) : List (String × String) :=
  (footnoteMatches text).foldl (fun d kv => dictInsert d kv.1 kv.2) []

/-- `re.sub(re.escape(needle), repl-empty, hay)`: delete every literal,
non-overlapping, leftmost occurrence of `needle`.  An empty pattern inserts
nothing and leaves the text unchanged. -/
def removeAllAux : Nat → List Char → List Char → List Char
  | 0, _, cs => cs
  | _ + 1, _, [] => []
  | fuel + 1, needle, c :: cs =>
    if needle ≠ [] ∧ needle.isPrefixOf (c :: cs) then
      removeAllAux fuel needle (List.drop needle.length (c :: cs))
    else c :: removeAllAux fuel needle cs

/-- Delete all literal occurrences of `content` from `text`. -/
def removeAll (content : String) (text : String) : String :=
  String.mk (removeAllAux (text.data.length + 1) content.data text.data)

/-- `re.sub(target-run, repl, _)`: every maximal run of `target` of length at
least `minRun` is replaced by `repl`; shorter runs are kept. -/
def collapseRunsAux (target : Char) (minRun : Nat) (repl : List Char) :
    Nat → List Char → List Char
  | 0, cs => cs
  | _ + 1, [] => []
  | fuel + 1, c :: cs =>
    if c = target then
      let run := 1 + (cs.takeWhile (fun d => d == target)).length
      let rest := cs.dropWhile (fun d => d == target)
      (if minRun ≤ run then repl else List.replicate run target) ++
        collapseRunsAux target minRun repl fuel rest
    else c :: collapseRunsAux target minRun repl fuel cs

/-- Index of the first occurrence of `needle` in the haystack. -/
def findSubAux : Nat → List Char → List Char → Nat → Option Nat
  | 0, _, _, _ => none
  | _ + 1, needle, [], i => if needle.isEmpty then some i else none
  | fuel + 1, needle, c :: cs, i =>
    if needle.isPrefixOf (c :: cs) then some i
    else findSubAux fuel needle cs (i + 1)

/-- First-occurrence search. -/
def findSub (needle hay : List Char) : Option Nat :=
  findSubAux (hay.length + 1) needle hay 0

/-- `Document.FindString` of the target Word document, modelled over the text
content that `process_to_word` appended to it: index of the first literal
occurrence of `s`. -/
def docFind (content : String) (s : String) : Option Nat :=
  findSub s.data content.data

/-- `re.sub(r'<!--.*?-->', '', _, flags=re.DOTALL)`: delete each comment from
its opener to the nearest following closer; an unclosed opener is kept. -/
def removeCommentsAux : Nat → List Char → List Char
  | 0, cs => cs
  | _ + 1, [] => []
  | fuel + 1, c :: cs =>
    if ['<', '!', '-', '-'].isPrefixOf (c :: cs) then
      match findSub ['-', '-', '>'] (List.drop 4 (c :: cs)) with
      | some i => removeCommentsAux fuel (List.drop (4 + i + 3) (c :: cs))
      | none => c :: removeCommentsAux fuel cs
    else c :: removeCommentsAux fuel cs

/-- `WordProcessor.clean_markdown_text`: drop HTML comments, drop `-{3,}`
runs, collapse `\n{2,}` to two newlines, strip. -/
def clean_markdown_text (text : String) : String :=
  let c1 := removeCommentsAux (text.data.length + 1) text.data
  let c2 := collapseRunsAux '-' 3 [] (c1.length + 1) c1
  let c3 := collapseRunsAux '\n' 2 ['\n', '\n'] (c2.length + 1) c2
  String.mk (pyStripList c3)

/-- `WordProcessor.remove_footnote_content_from_main`: delete every literal
occurrence of each footnote body, collapse `\n{3,}` to two newlines, collapse
space runs, strip. -/
def remove_footnote_content_from_main (text : String)
    (footnotes : List (String × String)) : String :=
  let cleaned := footnotes.foldl (fun acc kv => removeAll kv.2 acc) text
  let d1 := collapseRunsAux '\n' 3 ['\n', '\n'] (cleaned.data.length + 1) cleaned.data
  let d2 := collapseRunsAux ' ' 1 [' '] (d1.length + 1) d1
  String.mk (pyStripList d2)

/-- The whitespace normalization that `remove_footnote_content_from_main`
applies after the removal loop. -/
def normalizeWs (text : String) : String :=
  let d1 := collapseRunsAux '\n' 3 ['\n', '\n'] (text.data.length + 1) text.data
  let d2 := collapseRunsAux ' ' 1 [' '] (d1.length + 1) d1
  String.mk (pyStripList d2)

/-- One attempt of the inline marker pattern `\(\s*(\d+)\s*\)` at a position.
Returns the digit group, the full matched text (`match.group()`) and the
suffix after the match. -/
def inlineMatchAt (cs : List Char) : Option (String × String × List Char) :=
  match cs with
  | '(' :: r1 =>
    let ws1 := r1.takeWhile isPySpace
    let r2 := r1.dropWhile isPySpace
    let ds := r2.takeWhile pyIsDigit
    let r3 := r2.dropWhile pyIsDigit
    if ds.isEmpty then none
    else
      let ws2 := r3.takeWhile isPySpace
      match r3.dropWhile isPySpace with
      | ')' :: r5 =>
        some (String.mk ds, String.mk ('(' :: (ws1 ++ ds ++ ws2 ++ [')'])), r5)
      | _ => none
  | _ => none

/-- `finditer` of the inline marker pattern in document order. -/
def inlineMatchesAux : Nat → List Char → List (String × String)
  | 0, _ => []
  | _ + 1, [] => []
  | fuel + 1, c :: cs =>
    match inlineMatchAt (c :: cs) with
    | some (num, m, rest) => (num, m) :: inlineMatchesAux fuel rest
    | none => inlineMatchesAux fuel cs

/-- All inline markers `(num, matched text)` of the cleaned text. -/
def inlineMatches (text : String) : List (String × String) :=
  inlineMatchesAux (text.data.length + 1) text.data

/-- The Step 5 loop of `WordProcessor.process_to_word`.  For each inline
marker in document order: skip when the number is not a footnote key or was
already handled; otherwise record the number in `inserted_refs` and, when the
target document locates the matched text, insert the footnote there.  Returns
the recorded numbers and the actual insertion events
`(number, body, location)`. -/
def reinjectAux (fns : List (String × String)) (find : String → Option Nat) :
    List (String × String) → List String → List String × List (String × String × Nat)
  | [], inserted => (inserted, [])
  | (num, m) :: rest, inserted =>
    if (fns.lookup num).isSome ∧ num ∉ inserted then
      match find m with
      | some loc =>
        let r := reinjectAux fns find rest (inserted ++ [num])
        (r.1, (num, (fns.lookup num).getD "", loc) :: r.2)
      | none => reinjectAux fns find rest (inserted ++ [num])
    else reinjectAux fns find rest inserted

/-- `WordProcessor.detect_arabic_text`: search for `[؀-ۿ]`. -/
def detect_arabic_text (text : String) : Bool :=
  text.data.any (fun c => 0x600 ≤ c.toNat && c.toNat ≤ 0x6FF)

/-- `WordProcessor.normalize_arabic_text`, digit translation part. -/
def arabicToWestern (c : Char) : Char :=
  if 0x660 ≤ c.toNat ∧ c.toNat ≤ 0x669 then Char.ofNat (c.toNat - 0x660 + 48) else c

/-- The bidirectional / invisible marks `[‎‏‪-‮]`. -/
def isBidiMark (c : Char) : Bool :=
  c.toNat = 0x200E || c.toNat = 0x200F || (0x202A ≤ c.toNat && c.toNat ≤ 0x202E)

/-- `WordProcessor.normalize_arabic_text`: translate Arabic-Indic digits to
Western ones, then delete the bidi marks.  Defined by the source but never
invoked by `process_to_word`. -/
def normalize_arabic_text (s : String) : String :=
  String.mk ((s.data.map arabicToWestern).filter (fun c => !(isBidiMark c)))

/-- Observable outcome of `WordProcessor.process_to_word` on the happy path. -/
structure WordResult where
  success : Bool
  footnotes_count : Nat
  total_footnotes_detected : Nat
  language : String
  inserted_refs : List String
  insertions : List (String × String × Nat)

/-- The text-processing core of `WordProcessor.process_to_word`
(Steps 1, 2, 3 and 5 plus the reported counts), with the target document
FindString abstracted as `find`. -/
def process_to_word_core (markdown_content : String) (language : String)
    (find : String → Option Nat) : WordResult :=
  let clean_text := clean_markdown_text markdown_content
  let footnotes := extract_footnotes clean_text
  let main_text := remove_footnote_content_from_main clean_text footnotes
  let rtl := language = "rtl" || (language = "auto" && detect_arabic_text main_text)
  let r := reinjectAux footnotes find (inlineMatches main_text) []
  ⟨true, r.1.length, footnotes.length, if rtl then "rtl" else "ltr", r.1, r.2⟩

/-- `process_to_word` run against the Word document it itself builds: the
document content is the main text, and FindString is literal search in it. -/
def process_to_word_doc (markdown_content language : String) : WordResult :=
  let clean_text := clean_markdown_text markdown_content
  let footnotes := extract_footnotes clean_text
  let main_text := remove_footnote_content_from_main clean_text footnotes
  process_to_word_core markdown_content language (docFind main_text)

/-- A content block of `page.get_text("blocks")`: bounding rectangle
coordinates, text payload and type tag (`0` text, `1` image). -/
structure Block where
  x0 : ℚ
  y0 : ℚ
  x1 : ℚ
  y1 : ℚ
  text : String
  btype : Nat

/-- `abs(fitz.Rect(block[:4]))`: the rectangle area. -/
def Block.area (b : Block) : ℚ := |b.x1 - b.x0| * |b.y1 - b.y0|

/-- A page as `detect_pdf_type` reads it: `abs(page.rect)`, the content
blocks, and `len(page.get_fonts())`. -/
structure Page where
  rectArea : ℚ
  blocks : List Block
  fonts : Nat

/-- A document handle that opened successfully. -/
structure PdfDoc where
  pages : List Page

/-- Summed area of text blocks with non-blank text. -/
def text_area (p : Page) : ℚ :=
  ((p.blocks.filter (fun b => b.btype = 0 ∧ pyStrip b.text ≠ "")).map Block.area).sum

/-- Summed area of image blocks. -/
def image_area (p : Page) : ℚ :=
  ((p.blocks.filter (fun b => b.btype = 1)).map Block.area).sum

/-- `text_area / page_area`, guarding division by zero. -/
def text_coverage (p : Page) : ℚ :=
  if p.rectArea > 0 then text_area p / p.rectArea else 0

/-- `image_area / page_area`, guarding division by zero. -/
def image_coverage (p : Page) : ℚ :=
  if p.rectArea > 0 then image_area p / p.rectArea else 0

/-- The three per-page categories of the classifier loop. -/
inductive PageClass
  | image
  | text
  | ambiguous
deriving DecidableEq

/-- The per-page if/elif/else of `detect_pdf_type`, with the source
thresholds `image_threshold = 0.8`, `text_threshold = 0.05`. -/
def classifyPage (p : Page) : PageClass :=
  if image_coverage p > 8/10 ∨ (text_coverage p < 1/100 ∧ ¬ p.fonts > 0) then .image
  else if text_coverage p > 5/100 ∧ p.fonts > 0 then .text
  else .ambiguous

/-- Category tests used to count pages. -/
def isImage : PageClass → Bool
  | .image => true
  | _ => false

/-- Category test for text pages. -/
def isText : PageClass → Bool
  | .text => true
  | _ => false

/-- Category test for ambiguous pages. -/
def isAmbiguous : PageClass → Bool
  | .ambiguous => true
  | _ => false

/-- `sample_size = min(10, max(1, total_pages // 20))`. -/
def sample_size (total_pages : Nat) : Nat := min 10 (max 1 (total_pages / 20))

/-- `sample_indices = [i * total_pages // sample_size for i in range(sample_size)]`. -/
def sample_indices (total_pages : Nat) : List Nat :=
  (List.range (sample_size total_pages)).map
    (fun i => i * total_pages / sample_size total_pages)

/-- The pages visited by the sampling loop (`continue` on an out-of-range
index, `doc[idx]` otherwise). -/
def sampled_pages (doc : PdfDoc) : List Page :=
  (sample_indices doc.pages.length).filterMap (fun idx => doc.pages[idx]?)

/-- Per-page classification of the sampled pages, in index order. -/
def sampled_classes (doc : PdfDoc) : List PageClass :=
  (sampled_pages doc).map classifyPage

/-- `image_pages` counter. -/
def image_pages (doc : PdfDoc) : Nat := (sampled_classes doc).countP isImage

/-- `text_pages` counter. -/
def text_pages (doc : PdfDoc) : Nat := (sampled_classes doc).countP isText

/-- `ambiguous_pages` counter. -/
def ambiguous_pages (doc : PdfDoc) : Nat := (sampled_classes doc).countP isAmbiguous

/-- `image_ratio = image_pages / max(sample_size, 1)`. -/
def image_ratio (doc : PdfDoc) : ℚ :=
  (image_pages doc : ℚ) / ((max (sample_size doc.pages.length) 1 : Nat) : ℚ)

/-- `text_ratio = text_pages / max(sample_size, 1)`. -/
def text_ratio (doc : PdfDoc) : ℚ :=
  (text_pages doc : ℚ) / ((max (sample_size doc.pages.length) 1 : Nat) : ℚ)

/-- `ambiguous_ratio = ambiguous_pages / max(sample_size, 1)`. -/
def ambiguous_ratio (doc : PdfDoc) : ℚ :=
  (ambiguous_pages doc : ℚ) / ((max (sample_size doc.pages.length) 1 : Nat) : ℚ)

/-- The body of `detect_pdf_type` on an opened document: zero pages give
`"unknown"`, otherwise the majority decision with threshold `0.6`. -/
def detect_body (doc : PdfDoc) : String :=
  if doc.pages.length = 0 then "unknown"
  else if image_ratio doc > 6/10 then "image_based"
  else if text_ratio doc > 6/10 then "text_based"
  else "mixed"

/-- The `try/except` wrapper of `detect_pdf_type`: any exception raised while
opening or analysing the document yields `"unknown"`. -/
def tryUnknown (r : Except String String) : String :=
  match r with
  | .ok s => s
  | .error _ => "unknown"

/-- `PDFProcessor.detect_pdf_type`, with `fitz.open` modelled as an `Except`
value carrying either the document handle or the raised exception. -/
def detect_pdf_type (openResult : Except String PdfDoc) : String :=
  tryUnknown (openResult.map detect_body)

/-- `ProcessingMode` of `pdf_processor.py`. -/
inductive ProcessingMode
  | fast
  | rich
  | pro
deriving DecidableEq

/-- `mode.value`. -/
def ProcessingMode.value : ProcessingMode → String
  | .fast => "fast"
  | .rich => "rich"
  | .pro => "pro"

/-- The fields of the dict returned by `PDFProcessor.process_pdf` that the
control flow determines, plus the engine actually invoked (`None` when the
method returns before reaching a parser). -/
structure ProcResult where
  success : Bool
  error : Option String
  pdf_type : Option String
  requires_upgrade : Bool
  recommended_mode : Option String
  invoked : Option ProcessingMode
deriving DecidableEq

/-- `PDFProcessor.process_pdf`: existence check, unconditional type
detection, the hard validation gate for fast/rich against image/mixed, the
auto-detect mode override, then dispatch to the parser for the resolved mode
(the parsers are external; `parse` abstracts their success flag). -/
def process_pdf (fileExists : Bool) (openResult : Except String PdfDoc)
    (mode : ProcessingMode) (auto_detect : Bool)
    (parse : ProcessingMode → Bool) : ProcResult :=
  if fileExists = false then ⟨false, some "File not found", none, false, none, none⟩
  else
    let pdf_type := detect_pdf_type openResult
    if (mode = ProcessingMode.fast ∨ mode = ProcessingMode.rich) ∧
        (pdf_type = "image_based" ∨ pdf_type = "mixed") then
      ⟨false,
        some ("Cannot process " ++ pdf_type ++ " PDF with " ++ mode.value ++ " mode"),
        some pdf_type, true, some "pro", none⟩
    else
      let resolved :=
        if auto_detect ∧ pdf_type = "image_based" ∧ mode ≠ ProcessingMode.pro then
          ProcessingMode.pro
        else mode
      ⟨parse resolved, none, none, false, none, some resolved⟩

/-- A one-page document whose page is a single image block covering it:
classified `image_based`. -/
def imageDoc : PdfDoc := ⟨[⟨100, [⟨0, 0, 10, 10, "", 1⟩], 0⟩]⟩

/-- A one-page document whose page is a single non-blank text block covering
it, with an embedded font: classified `text_based`. -/
def textDoc : PdfDoc := ⟨[⟨100, [⟨0, 0, 10, 10, "hello", 0⟩], 1⟩]⟩

/-- Input with a Western inline marker and an Arabic-Indic footnote line. -/
def c2input : String := "Body (1) more.\n(١) Note"

/-- Input with one inline marker and one footnote line. -/
def c3input : String := "Text (1) ref.\n(1) The note"

/-- The round-trip example: an inline marker and the footnote line. -/
def c4input : String := "Some intro (1) continues.\n(1) Note body text\nThe end."

/-- The cleaned text the stripping step actually produces on `c4input`:
the footnote body is gone but the marker line survives. -/
def c4cleaned : String := "Some intro (1) continues.\n(1) \nThe end."

/-- A cleaned text in which the marker `(2)` occurs three times. -/
def c6text : String := "First (2) here, again (2) and (2) end."

/-- A footnote map defining the single key `2`. -/
def c6map : List (String × String) := [("2", "Second note")]

/-- Round-trip example for the idempotence claim. -/
def c9input : String := "intro (1) x.\n(1) Note body text\nend."

/- ------------------------------------------------------------------ -/
/- Theorems                                                            -/
/- ------------------------------------------------------------------ -/

/-- The recorded reference set of the reinjection loop does not depend on the
find function: a number is recorded before the location lookup happens. -/
theorem reinject_refs_indep (fns : List (String × String))
    (find find' : String → Option Nat) :
    ∀ (ms : List (String × String)) (acc : List String),
      (reinjectAux fns find ms acc).1 = (reinjectAux fns find' ms acc).1 := by
  intro ms
  induction ms with
  | nil => intro acc; rfl
  | cons head rest ih =>
    intro acc
    obtain ⟨n, m⟩ := head
    by_cases hc : (fns.lookup n).isSome ∧ n ∉ acc
    · cases hf : find m <;> cases hf' : find' m <;>
        simp [reinjectAux, hc, hf, hf', ih]
    · simp only [reinjectAux]
      rw [if_neg hc, if_neg hc]
      exact ih acc

/-- Once a number is in the accumulator, the loop never inserts it again. -/
theorem reinject_count_zero (fns : List (String × String))
    (find : String → Option Nat) (num : String) :
    ∀ (ms : List (String × String)) (acc : List String), num ∈ acc →
      (((reinjectAux fns find ms acc).2).map (fun x => x.1)).count num = 0 := by
  intro ms
  induction ms with
  | nil => intro acc _; rfl
  | cons head rest ih =>
    intro acc hacc
    obtain ⟨n, m⟩ := head
    by_cases hc : (fns.lookup n).isSome ∧ n ∉ acc
    · have hne : ¬ (num = n) := fun he => hc.2 (he ▸ hacc)
      have hacc2 : num ∈ acc ++ [n] := List.mem_append_left _ hacc
      cases hf : find m with
      | some loc =>
        simp [reinjectAux, hc, hf, List.count_cons, hne, ih (acc ++ [n]) hacc2]
      | none =>
        simp [reinjectAux, hc, hf, ih (acc ++ [n]) hacc2]
    · simp only [reinjectAux]
      rw [if_neg hc]
      exact ih acc hacc

/-- The reinjection loop performs at most one insertion per distinct
reference number. -/
theorem reinject_count_le_one (fns : List (String × String))
    (find : String → Option Nat) (num : String) :
    ∀ (ms : List (String × String)) (acc : List String),
      (((reinjectAux fns find ms acc).2).map (fun x => x.1)).count num ≤ 1 := by
  intro ms
  induction ms with
  | nil => intro acc; simp [reinjectAux]
  | cons head rest ih =>
    intro acc
    obtain ⟨n, m⟩ := head
    by_cases hc : (fns.lookup n).isSome ∧ n ∉ acc
    · cases hf : find m with
      | some loc =>
        by_cases hne : num = n
        · subst hne
          have h0 := reinject_count_zero fns find num rest (acc ++ [num])
            (List.mem_append_right _ (List.mem_singleton_self num))
          simp [reinjectAux, hc, hf, List.count_cons, h0]
        · simp [reinjectAux, hc, hf, List.count_cons, hne, ih (acc ++ [n])]
      | none => simp [reinjectAux, hc, hf, ih (acc ++ [n])]
    · simp only [reinjectAux]
      rw [if_neg hc]
      exact ih acc

/-- C2: the claim says Arabic-Indic digits are translated to Western digits
and bidi marks stripped before footnote extraction, so that an Arabic-Indic
footnote number behaves identically to its Western form.  The pipeline of
`process_to_word` never invokes `normalize_arabic_text`: on `c2input` the
extracted key stays in Arabic-Indic form, while the normalized text would
give the Western key; consequently the Western inline marker `(1)` is
skipped and the footnote anchors at the leftover Arabic-Indic marker of the
footnote line itself (index 15) instead of at the inline marker. -/
theorem c2_normalization_missing :
    extract_footnotes (clean_markdown_text c2input) = [("١", "Note")] ∧
    extract_footnotes (clean_markdown_text (normalize_arabic_text c2input)) =
      [("1", "Note")] ∧
    (process_to_word_doc c2input "ltr").inserted_refs = ["١"] ∧
    (process_to_word_doc c2input "ltr").insertions = [("١", "Note", 15)] := by
  decide

/-- C3 counterexample: against a target document that cannot locate any
marker occurrence (`find` always fails), the loop still records the number:
`footnotes_count` would be 1 with zero insertions, so
`total_footnotes_detected - footnotes_count = 0` although the footnote was
never inserted. -/
theorem c3_counted_without_insertion :
    (reinjectAux (extract_footnotes c3input) (fun _ => none)
      (inlineMatches (remove_footnote_content_from_main c3input
        (extract_footnotes c3input))) []).1 = ["1"] ∧
    (reinjectAux (extract_footnotes c3input) (fun _ => none)
      (inlineMatches (remove_footnote_content_from_main c3input
        (extract_footnotes c3input))) []).2 = [] ∧
    (extract_footnotes c3input).length = 1 := by
  decide

/-- C3 amended: the recorded reference set (hence `footnotes_count`) depends
only on the cleaned text and the footnote map, never on whether the marker
occurrence can be located in the target document — a number is recorded as
soon as its inline marker is found with a matching footnote key, before the
location lookup. -/
theorem c3_refs_independent_of_location :
    ∀ (text : String) (fns : List (String × String))
      (find find' : String → Option Nat),
      (reinjectAux fns find (inlineMatches text) []).1 =
      (reinjectAux fns find' (inlineMatches text) []).1 :=
  fun text fns find find' => reinject_refs_indep fns find find' (inlineMatches text) []

/-- C4 counterexample: stripping does not remove the entire line
`(1) Note body text` — only the body text is deleted, so the marker prefix
`(1) ` survives on its own line. -/
theorem c4_line_not_removed :
    remove_footnote_content_from_main c4input (extract_footnotes c4input) =
      c4cleaned ∧
    remove_footnote_content_from_main c4input (extract_footnotes c4input) ≠
      "Some intro (1) continues.\nThe end." := by
  decide

/-- C4 amended round-trip: extract yields exactly the map with key 1 and
body `Note body text`; strip deletes the body but leaves the `(1) ` marker
prefix of the footnote line in place (collapsing newline and space runs);
reinject performs exactly one insertion for key 1, at the first inline
occurrence of `(1)` (index 11). -/
theorem c4_roundtrip_amended :
    extract_footnotes c4input = [("1", "Note body text")] ∧
    remove_footnote_content_from_main c4input (extract_footnotes c4input) =
      c4cleaned ∧
    (reinjectAux (extract_footnotes c4input) (docFind c4cleaned)
      (inlineMatches c4cleaned) []).2 = [("1", "Note body text", 11)] := by
  decide

/-- C5 counterexample: on `a  b` extraction finds no footnote, yet stripping
does not return the text unmodified — the space run is collapsed. -/
theorem c5_strip_not_identity :
    extract_footnotes "a  b" = [] ∧
    remove_footnote_content_from_main "a  b" (extract_footnotes "a  b") = "a b" ∧
    "a b" ≠ "a  b" := by
  decide

/-- C5 amended: when extraction finds no matches it returns the empty map,
and stripping then performs no content removal, returning the text with only
the whitespace normalization applied (collapse 3+ newlines to 2, collapse
space runs, trim outer whitespace).  Both are total functions of the input
text, so neither can raise. -/
theorem c5_graceful_degradation (text : String) (h : footnoteMatches text = []) :
    extract_footnotes text = [] ∧
    remove_footnote_content_from_main text (extract_footnotes text) =
      normalizeWs text := by
  have h1 : extract_footnotes text = [] := by
    unfold extract_footnotes
    rw [h]
    rfl
  refine ⟨h1, ?_⟩
  rw [h1]
  rfl

/-- Witness for the amended C5 at a concrete no-footnote input. -/
theorem c5_graceful_degradation_witness :
    footnoteMatches "hello world" = [] ∧
    (extract_footnotes "hello world" = [] ∧
     remove_footnote_content_from_main "hello world"
       (extract_footnotes "hello world") = normalizeWs "hello world") :=
  ⟨by decide, c5_graceful_degradation "hello world" (by decide)⟩

/-- C6: the reinjection loop inserts at most one footnote per distinct
reference number for every cleaned text, footnote map and target document;
on a cleaned text where the marker `(2)` occurs three times with one
footnote defined for key 2, exactly one footnote is inserted, at the first
occurrence in document order (index 6). -/
theorem c6_at_most_one_insertion :
    (∀ (text : String) (fns : List (String × String))
       (find : String → Option Nat) (num : String),
      (((reinjectAux fns find (inlineMatches text) []).2).map
        (fun x => x.1)).count num ≤ 1) ∧
    (reinjectAux c6map (docFind c6text) (inlineMatches c6text) []).2 =
      [("2", "Second note", 6)] ∧
    ((inlineMatches c6text).map (fun x => x.1)).count "2" = 3 :=
  ⟨fun text fns find num =>
      reinject_count_le_one fns find num (inlineMatches text) [],
   by decide, by decide⟩

/-- C9 counterexample: re-running extract on the output of strip is not the
empty map. -/
theorem c9_not_idempotent :
    extract_footnotes (remove_footnote_content_from_main c9input
      (extract_footnotes c9input)) ≠ [] := by
  decide

/-- C9 amended: the `(1) ` marker prefix of the footnote line survives
stripping and re-matches the footnote pattern, the trailing `\s*` of the
pattern crossing the newline so that the following line `end.` is captured
as the new body: re-extraction yields the map with key 1 and body `end.`
rather than the empty map. -/
theorem c9_reextract_leftover_marker :
    extract_footnotes (remove_footnote_content_from_main c9input
      (extract_footnotes c9input)) = [("1", "end.")] := by
  decide

/-- C1: when the requested mode is fast or rich and the detected type is
image_based or mixed, `process_pdf` returns the rejection dict — success
false, the error string carrying the document class and the requested mode,
the `pdf_type` field, `requires_upgrade` and `recommended_mode = pro` — for
every auto_detect value, and invokes no extraction engine. -/
theorem c1_hard_gate_rejects (openResult : Except String PdfDoc)
    (mode : ProcessingMode) (auto_detect : Bool) (parse : ProcessingMode → Bool)
    (hm : mode = ProcessingMode.fast ∨ mode = ProcessingMode.rich)
    (ht : detect_pdf_type openResult = "image_based" ∨
      detect_pdf_type openResult = "mixed") :
    process_pdf true openResult mode auto_detect parse =
      ⟨false,
        some ("Cannot process " ++ detect_pdf_type openResult ++ " PDF with " ++
          mode.value ++ " mode"),
        some (detect_pdf_type openResult), true, some "pro", none⟩ := by
  have hgate : (mode = ProcessingMode.fast ∨ mode = ProcessingMode.rich) ∧
      (detect_pdf_type openResult = "image_based" ∨
        detect_pdf_type openResult = "mixed") := ⟨hm, ht⟩
  simp [process_pdf, hgate]

/-- The concrete one-image-page document classifies as image_based. -/
theorem imageDoc_is_image_based :
    detect_pdf_type (Except.ok imageDoc) = "image_based" := by
  have hone : sample_indices 1 = [0] := by
    simp [sample_indices, sample_size, List.range_succ]
  have hpage : classifyPage (⟨100, [⟨0, 0, 10, 10, "", 1⟩], 0⟩ : Page) =
      PageClass.image := by
    unfold classifyPage image_coverage text_coverage image_area text_area
      Block.area
    norm_num [List.filter]
  have hcls : sampled_classes imageDoc = [PageClass.image] := by
    unfold sampled_classes sampled_pages
    rw [show imageDoc.pages.length = 1 from rfl, hone]
    simp [imageDoc, hpage]
  have hpages1 : image_pages imageDoc = 1 := by
    unfold image_pages
    rw [hcls]
    rfl
  have hmax1 : ((max (sample_size imageDoc.pages.length) 1 : Nat) : ℚ) = 1 := by
    rw [show max (sample_size imageDoc.pages.length) 1 = 1 from by decide]
    exact Nat.cast_one
  have hgt : image_ratio imageDoc > 6/10 := by
    unfold image_ratio
    rw [hpages1, hmax1]
    norm_num
  show detect_body imageDoc = "image_based"
  unfold detect_body
  rw [if_neg (show ¬(imageDoc.pages.length = 0) from by decide), if_pos hgt]

/-- Witness for C1: fast mode against a document classified image_based. -/
theorem c1_hard_gate_rejects_witness :
    ((ProcessingMode.fast = ProcessingMode.fast ∨
        ProcessingMode.fast = ProcessingMode.rich) ∧
      (detect_pdf_type (Except.ok imageDoc) = "image_based" ∨
        detect_pdf_type (Except.ok imageDoc) = "mixed")) ∧
    process_pdf true (Except.ok imageDoc) ProcessingMode.fast true
        (fun _ => true) =
      ⟨false,
        some ("Cannot process " ++ detect_pdf_type (Except.ok imageDoc) ++
          " PDF with " ++ ProcessingMode.fast.value ++ " mode"),
        some (detect_pdf_type (Except.ok imageDoc)), true, some "pro", none⟩ :=
  ⟨⟨Or.inl rfl, Or.inl imageDoc_is_image_based⟩,
    c1_hard_gate_rejects (Except.ok imageDoc) ProcessingMode.fast true
      (fun _ => true) (Or.inl rfl) (Or.inl imageDoc_is_image_based)⟩

/-- C10: whenever `process_pdf` reaches an extraction engine, the engine
invoked is the one for the originally requested mode — the auto-detect
upgrade branch can never fire, because any document classified image_based
together with a non-pro requested mode was already rejected by the hard
gate, so auto_detect never changes which parser runs. -/
theorem c10_engine_matches_request (fileExists : Bool)
    (openResult : Except String PdfDoc) (mode : ProcessingMode)
    (auto_detect : Bool) (parse : ProcessingMode → Bool) :
    (process_pdf fileExists openResult mode auto_detect parse).invoked = none ∨
    (process_pdf fileExists openResult mode auto_detect parse).invoked =
      some mode := by
  by_cases hf : fileExists = false
  · left
    simp [process_pdf, hf]
  · by_cases hg : (mode = ProcessingMode.fast ∨ mode = ProcessingMode.rich) ∧
        (detect_pdf_type openResult = "image_based" ∨
          detect_pdf_type openResult = "mixed")
    · left
      simp [process_pdf, hf, hg]
    · right
      have hcond : ¬(auto_detect ∧ detect_pdf_type openResult = "image_based" ∧
          mode ≠ ProcessingMode.pro) := by
        rintro ⟨-, hpt, hpro⟩
        apply hg
        refine ⟨?_, Or.inl hpt⟩
        cases mode with
        | fast => exact Or.inl rfl
        | rich => exact Or.inr rfl
        | pro => exact absurd rfl hpro
      simp [process_pdf, hf, hg, hcond]

/-- The sample size is at least one. -/
theorem sample_size_pos (P : Nat) : 1 ≤ sample_size P := by
  unfold sample_size
  omega

/-- For a non-empty document the sample size never exceeds the page count. -/
theorem sample_size_le (P : Nat) (h : 1 ≤ P) : sample_size P ≤ P := by
  unfold sample_size
  omega

/-- Every sampled index is in range. -/
theorem sample_indices_lt (P : Nat) (h : 1 ≤ P) :
    ∀ idx ∈ sample_indices P, idx < P := by
  intro idx hidx
  unfold sample_indices at hidx
  rw [List.mem_map] at hidx
  obtain ⟨i, hi, rfl⟩ := hidx
  rw [List.mem_range] at hi
  have hS : 0 < sample_size P := sample_size_pos P
  rw [Nat.div_lt_iff_lt_mul hS, mul_comm P (sample_size P)]
  exact mul_lt_mul_of_pos_right hi h

/-- The index map is strictly monotone when the sample size divides the
range, hence sampled indices are pairwise distinct. -/
theorem sample_index_mono (P S i j : Nat) (hS : 0 < S) (hSP : S ≤ P)
    (hij : i < j) : i * P / S < j * P / S := by
  have h1 : i * P + S ≤ j * P := by
    have h2 : (i + 1) * P ≤ j * P := Nat.mul_le_mul_right P hij
    have h3 : (i + 1) * P = i * P + P := by ring
    omega
  have h4 : (i * P + S) / S ≤ j * P / S := Nat.div_le_div_right h1
  rw [Nat.add_div_right _ hS] at h4
  omega

/-- The sampled indices are pairwise distinct. -/
theorem sample_indices_nodup (P : Nat) (h : 1 ≤ P) :
    (sample_indices P).Nodup := by
  have hS : 0 < sample_size P := sample_size_pos P
  have hSP : sample_size P ≤ P := sample_size_le P h
  unfold sample_indices
  refine List.Nodup.map_on ?_ (List.nodup_range _)
  intro i hi j hj hf
  rw [List.mem_range] at hi hj
  by_contra hne
  rcases Nat.lt_or_ge i j with hlt | hge
  · exact Nat.ne_of_lt (sample_index_mono P (sample_size P) i j hS hSP hlt) hf
  · have hlt2 : j < i := by omega
    exact Nat.ne_of_lt (sample_index_mono P (sample_size P) j i hS hSP hlt2)
      hf.symm

/-- With every index in range, the `continue` guard never fires and the loop
visits exactly `sample_size` pages. -/
theorem sampled_pages_length (doc : PdfDoc) (h : 1 ≤ doc.pages.length) :
    (sampled_pages doc).length = sample_size doc.pages.length := by
  have hlt := sample_indices_lt doc.pages.length h
  unfold sampled_pages
  have hgen : ∀ (idxs : List Nat), (∀ i ∈ idxs, i < doc.pages.length) →
      (idxs.filterMap (fun idx => doc.pages[idx]?)).length = idxs.length := by
    intro idxs
    induction idxs with
    | nil => intro _; rfl
    | cons a t ih =>
      intro hm
      have ha : a < doc.pages.length := hm a (List.mem_cons_self a t)
      rw [List.filterMap_cons, List.getElem?_eq_getElem ha]
      simp [ih (fun i hi => hm i (List.mem_cons_of_mem a hi))]
  rw [hgen _ hlt]
  unfold sample_indices
  rw [List.length_map, List.length_range]

/-- Each page falls in exactly one of the three categories. -/
theorem countP_partition (l : List PageClass) :
    l.countP isImage + l.countP isText + l.countP isAmbiguous = l.length := by
  induction l with
  | nil => rfl
  | cons c t ih =>
    cases c <;> simp [List.countP_cons, isImage, isText, isAmbiguous] <;> omega

/-- C7: for every document with at least one page, all sampled indices lie in
`[0, P)` and are pairwise distinct, the three category counters partition the
`sample_size` sampled pages, each ratio is its count divided by the sample
size, and the three ratios sum exactly to one. -/
theorem c7_sampling_partition (doc : PdfDoc) (h : 1 ≤ doc.pages.length) :
    (∀ idx ∈ sample_indices doc.pages.length, idx < doc.pages.length) ∧
    (sample_indices doc.pages.length).Nodup ∧
    image_pages doc + text_pages doc + ambiguous_pages doc =
      sample_size doc.pages.length ∧
    image_ratio doc =
      (image_pages doc : ℚ) / (sample_size doc.pages.length : ℚ) ∧
    text_ratio doc =
      (text_pages doc : ℚ) / (sample_size doc.pages.length : ℚ) ∧
    ambiguous_ratio doc =
      (ambiguous_pages doc : ℚ) / (sample_size doc.pages.length : ℚ) ∧
    image_ratio doc + text_ratio doc + ambiguous_ratio doc = 1 := by
  have hS1 : 1 ≤ sample_size doc.pages.length := sample_size_pos _
  have hmax : max (sample_size doc.pages.length) 1 =
      sample_size doc.pages.length := Nat.max_eq_left hS1
  have hcnt : image_pages doc + text_pages doc + ambiguous_pages doc =
      sample_size doc.pages.length := by
    unfold image_pages text_pages ambiguous_pages
    rw [countP_partition]
    unfold sampled_classes
    rw [List.length_map]
    exact sampled_pages_length doc h
  have hr1 : image_ratio doc =
      (image_pages doc : ℚ) / (sample_size doc.pages.length : ℚ) := by
    unfold image_ratio
    rw [hmax]
  have hr2 : text_ratio doc =
      (text_pages doc : ℚ) / (sample_size doc.pages.length : ℚ) := by
    unfold text_ratio
    rw [hmax]
  have hr3 : ambiguous_ratio doc =
      (ambiguous_pages doc : ℚ) / (sample_size doc.pages.length : ℚ) := by
    unfold ambiguous_ratio
    rw [hmax]
  have hSne : ((sample_size doc.pages.length : ℚ)) ≠ 0 :=
    Nat.cast_ne_zero.mpr (by omega)
  have hsum : image_ratio doc + text_ratio doc + ambiguous_ratio doc = 1 := by
    rw [hr1, hr2, hr3, div_add_div_same, div_add_div_same, ← Nat.cast_add,
      ← Nat.cast_add, hcnt]
    exact div_self hSne
  exact ⟨sample_indices_lt _ h, sample_indices_nodup _ h, hcnt, hr1, hr2, hr3,
    hsum⟩

/-- Witness for C7 at a concrete one-page text document. -/
theorem c7_sampling_partition_witness :
    1 ≤ textDoc.pages.length ∧
    ((∀ idx ∈ sample_indices textDoc.pages.length,
        idx < textDoc.pages.length) ∧
     (sample_indices textDoc.pages.length).Nodup ∧
     image_pages textDoc + text_pages textDoc + ambiguous_pages textDoc =
       sample_size textDoc.pages.length ∧
     image_ratio textDoc =
       (image_pages textDoc : ℚ) / (sample_size textDoc.pages.length : ℚ) ∧
     text_ratio textDoc =
       (text_pages textDoc : ℚ) / (sample_size textDoc.pages.length : ℚ) ∧
     ambiguous_ratio textDoc =
       (ambiguous_pages textDoc : ℚ) / (sample_size textDoc.pages.length : ℚ) ∧
     image_ratio textDoc + text_ratio textDoc + ambiguous_ratio textDoc = 1) :=
  ⟨by decide, c7_sampling_partition textDoc (by decide)⟩

/-- C8: a zero-page document classifies as unknown, and any exception raised
while opening or analysing the document is caught by the `try/except`
wrapper and yields unknown instead of propagating; the embedded
`detect_pdf_type` is a total function, so it cannot raise. -/
theorem c8_unknown_on_failure :
    (∀ doc : PdfDoc, doc.pages.length = 0 →
      detect_pdf_type (Except.ok doc) = "unknown") ∧
    (∀ e : String, detect_pdf_type (Except.error e) = "unknown") ∧
    (∀ e : String, tryUnknown (Except.error e) = "unknown") := by
  refine ⟨?_, ?_, ?_⟩
  · intro doc h
    simp [detect_pdf_type, Except.map, tryUnknown, detect_body, h]
  · intro e
    rfl
  · intro e
    rfl

/-- Witness for C8: the empty document and a concrete open failure. -/
theorem c8_unknown_on_failure_witness :
    (PdfDoc.mk []).pages.length = 0 ∧
    detect_pdf_type (Except.ok (PdfDoc.mk [])) = "unknown" ∧
    detect_pdf_type (Except.error "cannot open document") = "unknown" :=
  ⟨rfl, c8_unknown_on_failure.1 (PdfDoc.mk []) rfl,
    c8_unknown_on_failure.2.1 "cannot open document"⟩
